import Mathlib

/-!
Verification development for the chatly-sdk core (crypto/e2e.ts,
stores/memory/groupStore.ts, utils/messageQueue.ts,
transport/websocketClient.ts, the ChatSDK orchestrator and constants.ts).

Modelling conventions:
* Node `Buffer`s and byte strings are `List Nat` (one entry per byte).
* Base64 encoding (`bufferToBase64` / `base64ToBuffer` in crypto/utils.ts)
  is a bijection between buffers and their base64 strings that the code only
  ever composes in inverse pairs, so both are modelled as the identity on the
  underlying byte list.
* AES-256-GCM (Node `createCipheriv`/`createDecipheriv`) is an external
  primitive; it is modelled as an ideal authenticated stream cipher: an
  XOR keystream determined by (key, iv) and an authentication tag that is a
  deterministic function of (key, iv, ciphertext).  This preserves exactly
  the algebraic structure the source relies on (decryption is the inverse
  keystream application, the tag recomputation on decrypt matches iff the
  same key/iv/ciphertext triple is presented).
* Randomness (`randomBytes`), UUIDs and `Date.now()` are externalized as
  explicit parameters of the operations that draw them.
-/

/-- Node `Buffer`: a list of bytes. -/
abbrev Buffer := List Nat

/-- constants.ts: IV_LENGTH = 12. -/
def IV_LENGTH : Nat := 12

/-- constants.ts: SALT_LENGTH = 16. -/
def SALT_LENGTH : Nat := 16

/-- constants.ts: KEY_LENGTH = 32. -/
def KEY_LENGTH : Nat := 32

/-- constants.ts: TAG_LENGTH = 16. -/
def TAG_LENGTH : Nat := 16

/-- constants.ts: PBKDF2_ITERATIONS = 100000. -/
def PBKDF2_ITERATIONS : Nat := 100000

/-- crypto/utils.ts `bufferToBase64`: base64 is a bijection, modelled as id. -/
def bufferToBase64 (b : Buffer) : Buffer := b

/-- crypto/utils.ts `base64ToBuffer`: inverse of `bufferToBase64`, modelled as id. -/
def base64ToBuffer (b : Buffer) : Buffer := b

/-- Deterministic mixing fold used by the idealized crypto primitives. -/
def mixFold (l : List Nat) (init : Nat) : Nat :=
  l.foldl (fun a b => a * 257 + b + 1) init

/-- Idealized AES-256-GCM keystream byte `i` for a given key and iv. -/
def keystream (secret iv : Buffer) (i : Nat) : Nat :=
  (mixFold iv (mixFold secret 5) + i) % 256

/-- XOR-keystream application starting at stream position `i`
(the CTR core of the idealized AES-GCM model). -/
def gcmCipherFrom (secret iv : Buffer) : Nat → Buffer → Buffer
  | _, [] => []
  | i, b :: rest => Nat.xor b (keystream secret iv i) :: gcmCipherFrom secret iv (i + 1) rest

/-- Idealized AES-GCM body: XOR the data with the (key, iv) keystream.
Applying it twice with the same key/iv is the identity. -/
def gcmCipher (data secret iv : Buffer) : Buffer := gcmCipherFrom secret iv 0 data

/-- Idealized GCM authentication tag: TAG_LENGTH bytes deterministically
derived from (key, iv, ciphertext). -/
def gcmTag (secret iv ct : Buffer) : Buffer :=
  (List.range TAG_LENGTH).map (fun j => (mixFold ct (mixFold iv (mixFold secret 11)) + j) % 256)

/-- Return type of `encryptMessage` in crypto/e2e.ts. -/
structure EncryptedPayload where
  ciphertext : Buffer
  iv : Buffer
deriving DecidableEq, Repr

/-- crypto/e2e.ts `encryptMessage(plaintext, secret)`: encrypt with AES-GCM,
append the auth tag to the ciphertext, base64 both parts.  The 12-byte nonce
drawn from `randomBytes(IV_LENGTH)` is the explicit `ivDraw` parameter. -/
def encryptMessage (plaintext secret ivDraw : Buffer) : EncryptedPayload :=
  let iv := ivDraw
  let ciphertext := gcmCipher plaintext secret iv
  let tag := gcmTag secret iv ciphertext
  let encrypted := ciphertext ++ tag
  { ciphertext := bufferToBase64 encrypted, iv := bufferToBase64 iv }

/-- crypto/e2e.ts `decryptMessage(ciphertext, iv, secret)`: split the trailing
TAG_LENGTH bytes as the tag, decrypt the remainder, fail (throw, modelled as
`none`) if the recomputed tag does not match. -/
def decryptMessage (ciphertext iv secret : Buffer) : Option Buffer :=
  let encryptedBuffer := base64ToBuffer ciphertext
  let ivBuffer := base64ToBuffer iv
  let tag := encryptedBuffer.drop (encryptedBuffer.length - TAG_LENGTH)
  let actualCiphertext := encryptedBuffer.take (encryptedBuffer.length - TAG_LENGTH)
  if gcmTag secret ivBuffer actualCiphertext = tag then
    some (gcmCipher actualCiphertext secret ivBuffer)
  else
    none

theorem gcmCipherFrom_invol (secret iv : Buffer) :
    ∀ (i : Nat) (l : Buffer), gcmCipherFrom secret iv i (gcmCipherFrom secret iv i l) = l := by
  intro i l
  induction l generalizing i with
  | nil => simp [gcmCipherFrom]
  | cons b rest ih =>
    simp only [gcmCipherFrom, List.cons.injEq]
    exact ⟨Nat.xor_cancel_right (keystream secret iv i) b, ih (i + 1)⟩

theorem gcmTag_length (secret iv ct : Buffer) : (gcmTag secret iv ct).length = TAG_LENGTH := by
  simp [gcmTag]

/-- Round-trip of the codec: decrypting an encryption with the same key and
the same drawn nonce recovers the plaintext. -/
theorem decryptMessage_encryptMessage (P K iv : Buffer) :
    decryptMessage (encryptMessage P K iv).ciphertext (encryptMessage P K iv).iv K = some P := by
  unfold decryptMessage encryptMessage bufferToBase64 base64ToBuffer
  simp only []
  have hlen : (gcmCipher P K iv ++ gcmTag K iv (gcmCipher P K iv)).length - TAG_LENGTH
      = (gcmCipher P K iv).length := by
    rw [List.length_append, gcmTag_length]
    omega
  rw [hlen, List.take_left, List.drop_left, if_pos rfl]
  unfold gcmCipher
  rw [gcmCipherFrom_invol]

/-- C1: For every plaintext and every 32-byte key, decrypting the output of a
single invocation of `encryptMessage` (same drawn nonce) with the same key
returns the original plaintext. -/
theorem encryptMessage_decryptMessage_roundtrip (P K iv : Buffer) (hK : K.length = 32) :
    decryptMessage (encryptMessage P K iv).ciphertext (encryptMessage P K iv).iv K = some P :=
  decryptMessage_encryptMessage P K iv

/-- Witness for C1 at a concrete plaintext, 32-byte key and 12-byte nonce. -/
theorem encryptMessage_decryptMessage_roundtrip_witness :
    (List.replicate 32 0 : Buffer).length = 32 ∧
      decryptMessage (encryptMessage [104, 105] (List.replicate 32 0) (List.replicate 12 1)).ciphertext
        (encryptMessage [104, 105] (List.replicate 32 0) (List.replicate 12 1)).iv
        (List.replicate 32 0) = some [104, 105] :=
  ⟨by decide, encryptMessage_decryptMessage_roundtrip [104, 105] (List.replicate 32 0)
    (List.replicate 12 1) (by decide)⟩

/-- Soundness of the codec: if `decryptMessage` succeeds, the input ciphertext
is exactly what `encryptMessage` produces for the returned plaintext under the
same key and iv (the auth tag binds key, iv and ciphertext). -/
theorem decryptMessage_sound (C iv K P : Buffer)
    (h : decryptMessage C iv K = some P) : (encryptMessage P K iv).ciphertext = C := by
  unfold decryptMessage base64ToBuffer at h
  by_cases htag : gcmTag K iv (C.take (C.length - TAG_LENGTH)) = C.drop (C.length - TAG_LENGTH)
  · rw [if_pos htag] at h
    have hP : P = gcmCipher (C.take (C.length - TAG_LENGTH)) K iv := (Option.some.injEq _ _).mp h |>.symm
    unfold encryptMessage bufferToBase64
    simp only []
    have hinv : gcmCipher P K iv = C.take (C.length - TAG_LENGTH) := by
      rw [hP]
      unfold gcmCipher
      rw [gcmCipherFrom_invol]
    rw [hinv, htag, List.take_append_drop]
  · rw [if_neg htag] at h
    exact absurd h (by simp)

/-- C3: a ciphertext that is not the output of `encryptMessage` under the
same key and iv is always rejected by `decryptMessage` (no plaintext that
does not match an original encryption is ever returned). -/
theorem decryptMessage_rejects_unauthentic (C iv K : Buffer)
    (h : ∀ P : Buffer, (encryptMessage P K iv).ciphertext ≠ C) :
    decryptMessage C iv K = none := by
  cases hd : decryptMessage C iv K with
  | none => rfl
  | some P => exact absurd (decryptMessage_sound C iv K P hd) (h P)

/-- Witness for C3: a 3-byte buffer cannot be an `encryptMessage` output (every
output carries a 16-byte tag), and `decryptMessage` rejects it. -/
theorem decryptMessage_rejects_unauthentic_witness :
    (∀ P : Buffer, (encryptMessage P (List.replicate 32 0) (List.replicate 12 1)).ciphertext ≠ [0, 1, 2]) ∧
      decryptMessage [0, 1, 2] (List.replicate 12 1) (List.replicate 32 0) = none := by
  have h : ∀ P : Buffer, (encryptMessage P (List.replicate 32 0) (List.replicate 12 1)).ciphertext ≠ [0, 1, 2] := by
    intro P hc
    have hlen := congrArg List.length hc
    simp only [encryptMessage, bufferToBase64, List.length_append, gcmTag_length,
      TAG_LENGTH, List.length_cons, List.length_nil] at hlen
    omega
  exact ⟨h, decryptMessage_rejects_unauthentic [0, 1, 2] (List.replicate 12 1) (List.replicate 32 0) h⟩

/-- Modulus of the idealized ECDH group (P-256 is an external primitive; it is
modelled as modular exponentiation in a cyclic group, which has exactly the
commutativity property `computeSecret` relies on). -/
def ECDH_P : Nat := 1000003

/-- Generator of the idealized ECDH group. -/
def ECDH_G : Nat := 2

/-- Interpret a buffer as the natural number it encodes (big-endian base 256);
used to read scalars and group elements out of key buffers. -/
def bufFold (l : Buffer) : Nat := l.foldl (fun a b => a * 256 + b) 0

/-- Public key of the idealized ECDH key pair holding private scalar `priv`:
the group element `g ^ priv`, serialized as a one-element buffer. -/
def ecdhPublicKey (priv : Buffer) : Buffer := [ECDH_G ^ bufFold priv % ECDH_P]

/-- Node `ecdh.computeSecret(remotePublicKey)` with `setPrivateKey(priv)`:
raises the remote public group element to the local private scalar. -/
def ecdhComputeSecret (priv remotePub : Buffer) : Buffer :=
  [bufFold remotePub ^ bufFold priv % ECDH_P]

/-- Idealized SHA-256: 32 bytes deterministically mixed from the input. -/
def sha256 (data : Buffer) : Buffer :=
  (List.range 32).map (fun j => (mixFold data 97 + j) % 256)

/-- Idealized PBKDF2-HMAC-SHA256 (`pbkdf2Sync`): `keyLen` bytes
deterministically mixed from the password, salt and iteration count. -/
def pbkdf2Sync (secret salt : Buffer) (iterations keyLen : Nat) : Buffer :=
  (List.range keyLen).map (fun j => (mixFold salt (mixFold secret iterations) + j) % 256)

/-- crypto/keys.ts `KeyPair`: base64-encoded public and private key. -/
structure KeyPair where
  publicKey : Buffer
  privateKey : Buffer
deriving DecidableEq, Repr

/-- Node `Buffer.compare`: lexicographic byte comparison, shorter prefix first.
Returns -1, 0 or 1. -/
def bufCompare : Buffer → Buffer → Int
  | [], [] => 0
  | [], _ :: _ => -1
  | _ :: _, [] => 1
  | a :: as, b :: bs => if a < b then -1 else if b < a then 1 else bufCompare as bs

/-- crypto/e2e.ts `deriveSharedSecret(local, remotePublicKey)`: ECDH shared
point, then a deterministic salt from SHA-256 of the two public keys in
byte-lexicographic order, then PBKDF2 stretching to a 32-byte key. -/
def deriveSharedSecret (localKp : KeyPair) (remotePublicKey : Buffer) : Buffer :=
  let sharedSecret := ecdhComputeSecret (base64ToBuffer localKp.privateKey) (base64ToBuffer remotePublicKey)
  let a := base64ToBuffer localKp.publicKey
  let b := base64ToBuffer remotePublicKey
  let ordered := if bufCompare a b ≤ 0 then (a, b) else (b, a)
  let hash := sha256 (ordered.1 ++ ordered.2)
  let salt := hash.take SALT_LENGTH
  pbkdf2Sync sharedSecret salt PBKDF2_ITERATIONS KEY_LENGTH

theorem bufCompare_neg : ∀ (a b : Buffer), bufCompare b a = -bufCompare a b := by
  intro a
  induction a with
  | nil => intro b; cases b <;> simp [bufCompare]
  | cons x xs ih =>
    intro b
    cases b with
    | nil => simp [bufCompare]
    | cons y ys =>
      by_cases hxy : x < y
      · have hyx : ¬ y < x := by omega
        simp [bufCompare, hxy, hyx]
      · by_cases hyx : y < x
        · simp [bufCompare, hxy, hyx]
        · simp [bufCompare, hxy, hyx, ih ys]

theorem bufCompare_eq_zero : ∀ (a b : Buffer), bufCompare a b = 0 → a = b := by
  intro a
  induction a with
  | nil => intro b h; cases b with
    | nil => rfl
    | cons y ys => simp [bufCompare] at h
  | cons x xs ih =>
    intro b h
    cases b with
    | nil => simp [bufCompare] at h
    | cons y ys =>
      by_cases hxy : x < y
      · simp [bufCompare, hxy] at h
      · by_cases hyx : y < x
        · simp [bufCompare, hxy, hyx] at h
        · have hx : x = y := by omega
          simp only [bufCompare, if_neg hxy, if_neg hyx] at h
          rw [hx, ih ys h]

/-- The two-sided ordering of a pair of buffers agrees regardless of which is
"local": the sorted pair is symmetric in its arguments. -/
theorem bufCompare_sort_symm (a b : Buffer) :
    (if bufCompare a b ≤ 0 then (a, b) else (b, a))
      = (if bufCompare b a ≤ 0 then (b, a) else (a, b)) := by
  by_cases hab : bufCompare a b ≤ 0
  · by_cases hba : bufCompare b a ≤ 0
    · have h0 : bufCompare a b = 0 := by
        have := bufCompare_neg a b
        omega
      have := bufCompare_eq_zero a b h0
      subst this
      simp
    · simp [hab, hba]
  · have hba : bufCompare b a ≤ 0 := by
      have := bufCompare_neg a b
      omega
    simp [hab, hba]

/-- C4: for well-formed key pairs, `deriveSharedSecret` is symmetric: A with
B's public key derives the same 32-byte key as B with A's public key
(ECDH commutativity plus byte-lexicographic salt ordering). -/
theorem deriveSharedSecret_comm (A B : KeyPair)
    (hA : A.publicKey = ecdhPublicKey A.privateKey)
    (hB : B.publicKey = ecdhPublicKey B.privateKey) :
    deriveSharedSecret A B.publicKey = deriveSharedSecret B A.publicKey := by
  unfold deriveSharedSecret base64ToBuffer
  have hshared : ecdhComputeSecret A.privateKey B.publicKey
      = ecdhComputeSecret B.privateKey A.publicKey := by
    rw [hA, hB]
    unfold ecdhComputeSecret ecdhPublicKey bufFold
    simp only [List.foldl_cons, List.foldl_nil, Nat.zero_mul, Nat.zero_add]
    rw [← Nat.pow_mod, ← Nat.pow_mod, ← pow_mul, ← pow_mul, Nat.mul_comm]
  simp only [hshared, bufCompare_sort_symm A.publicKey B.publicKey]

/-- Witness for C4 at concrete well-formed key pairs (scalars 3 and 5). -/
theorem deriveSharedSecret_comm_witness :
    (KeyPair.mk (ecdhPublicKey [3]) [3]).publicKey = ecdhPublicKey (KeyPair.mk (ecdhPublicKey [3]) [3]).privateKey ∧
    (KeyPair.mk (ecdhPublicKey [5]) [5]).publicKey = ecdhPublicKey (KeyPair.mk (ecdhPublicKey [5]) [5]).privateKey ∧
    deriveSharedSecret (KeyPair.mk (ecdhPublicKey [3]) [3]) (KeyPair.mk (ecdhPublicKey [5]) [5]).publicKey
      = deriveSharedSecret (KeyPair.mk (ecdhPublicKey [5]) [5]) (KeyPair.mk (ecdhPublicKey [3]) [3]).publicKey :=
  ⟨rfl, rfl, deriveSharedSecret_comm (KeyPair.mk (ecdhPublicKey [3]) [3])
    (KeyPair.mk (ecdhPublicKey [5]) [5]) rfl rfl⟩

/-- models/mediaTypes.ts `MediaType`. -/
inductive MediaType
  | image
  | audio
  | video
  | document
deriving DecidableEq, Repr

/-- models/mediaTypes.ts `MediaMetadata`. -/
structure MediaMetadata where
  filename : String
  mimeType : String
  size : Nat
  width : Option Nat
  height : Option Nat
  duration : Option Nat
  thumbnail : Option Buffer
deriving DecidableEq, Repr

/-- models/mediaTypes.ts `MediaAttachment`: `data` is the (base64) payload. -/
structure MediaAttachment where
  type : MediaType
  data : Buffer
  metadata : MediaMetadata
deriving DecidableEq, Repr

/-- models/message.ts `MessageType`. -/
inductive MessageType
  | text
  | media
  | system
deriving DecidableEq, Repr

/-- models/message.ts `Message` envelope. -/
structure Message where
  id : String
  senderId : String
  receiverId : Option String
  groupId : Option String
  ciphertext : Buffer
  iv : Buffer
  timestamp : Nat
  type : MessageType
  media : Option MediaAttachment
deriving DecidableEq, Repr

/-- models/user.ts `User`. -/
structure User where
  id : String
  username : String
  identityKey : Buffer
  publicKey : Buffer
  privateKey : Buffer
deriving DecidableEq, Repr

/-- stores/memory/groupStore.ts `ChatSession` (immutable part; the mutable
`sharedSecret` field is threaded explicitly as an `Option Buffer` state). -/
structure ChatSession where
  id : String
  userA : User
  userB : User
deriving DecidableEq, Repr

/-- `ChatSession.initialize()`: derive the shared secret from userA's key pair
and userB's public key. -/
def ChatSession.initSession (s : ChatSession) : Option Buffer :=
  some (deriveSharedSecret (KeyPair.mk s.userA.publicKey s.userA.privateKey) s.userB.publicKey)

/-- `ChatSession.initializeForUser(user)`: re-derive from `user`'s perspective,
resolving the other party by id comparison with userA. -/
def ChatSession.initForUser (s : ChatSession) (user : User) : Option Buffer :=
  let otherUser := if user.id = s.userA.id then s.userB else s.userA
  some (deriveSharedSecret (KeyPair.mk user.publicKey user.privateKey) otherUser.publicKey)

/-- Shared-secret state after the lazy-init guard at the top of
`ChatSession.encrypt` / `ChatSession.encryptMedia`
(`if (!this.sharedSecret) await this.initialize()`). -/
def ChatSession.encryptKeyState (s : ChatSession) (st : Option Buffer) : Option Buffer :=
  match st with
  | none => s.initSession
  | some k => some k

/-- Shared-secret state after the guard at the top of `ChatSession.decrypt` /
`ChatSession.decryptMedia`: re-derives whenever the secret is unset OR the
decrypting user is neither userA nor userB. -/
def ChatSession.decryptKeyState (s : ChatSession) (st : Option Buffer) (user : User) : Option Buffer :=
  if st = none ∨ (user.id ≠ s.userA.id ∧ user.id ≠ s.userB.id) then s.initForUser user else st

/-- Receiver resolution in the envelopes built by `ChatSession`:
`senderId === userA.id ? userB.id : userA.id`. -/
def ChatSession.receiverFor (s : ChatSession) (senderId : String) : String :=
  if senderId = s.userA.id then s.userB.id else s.userA.id

/-- `ChatSession.encrypt(plaintext, senderId)`: returns the updated
shared-secret state (first component; `none` models the dead
"Failed to initialize session" throw) and the produced envelope.  `msgId`
(`generateUUID()`), `now` (`Date.now()`) and the drawn nonce are parameters. -/
def ChatSession.encrypt (s : ChatSession) (st : Option Buffer) (plaintext : Buffer)
    (senderId msgId : String) (now : Nat) (ivDraw : Buffer) : Option Buffer × Option Message :=
  match ChatSession.encryptKeyState s st with
  | none => (none, none)
  | some key =>
    let r := encryptMessage plaintext key ivDraw
    (some key, some
      { id := msgId, senderId := senderId,
        receiverId := some (ChatSession.receiverFor s senderId), groupId := none,
        ciphertext := r.ciphertext, iv := r.iv, timestamp := now,
        type := MessageType.text, media := none })

/-- `ChatSession.encryptMedia(plaintext, media, senderId)`: encrypts the
caption (nonce `ivTextDraw`), separately encrypts the media payload with its
own freshly drawn nonce `ivMediaDraw`, and stores only the caption's iv on the
returned envelope (the media nonce is discarded). -/
def ChatSession.encryptMedia (s : ChatSession) (st : Option Buffer) (plaintext : Buffer)
    (media : MediaAttachment) (senderId msgId : String) (now : Nat)
    (ivTextDraw ivMediaDraw : Buffer) : Option Buffer × Option Message :=
  match ChatSession.encryptKeyState s st with
  | none => (none, none)
  | some key =>
    let r := encryptMessage plaintext key ivTextDraw
    let rMedia := encryptMessage media.data key ivMediaDraw
    let encryptedMedia : MediaAttachment := { media with data := rMedia.ciphertext }
    (some key, some
      { id := msgId, senderId := senderId,
        receiverId := some (ChatSession.receiverFor s senderId), groupId := none,
        ciphertext := r.ciphertext, iv := r.iv, timestamp := now,
        type := MessageType.media, media := some encryptedMedia })

/-- `ChatSession.decrypt(message, user)`: returns the updated shared-secret
state and the decrypted plaintext (`none` models the thrown decryption
failure). -/
def ChatSession.decrypt (s : ChatSession) (st : Option Buffer) (message : Message)
    (user : User) : Option Buffer × Option Buffer :=
  match ChatSession.decryptKeyState s st user with
  | none => (none, none)
  | some key => (some key, decryptMessage message.ciphertext message.iv key)

/-- `ChatSession.decryptMedia(message, user)`: decrypts the caption with the
envelope's iv and then decrypts the media payload with the SAME envelope iv
(`message.iv`), not a media-specific nonce. -/
def ChatSession.decryptMedia (s : ChatSession) (st : Option Buffer) (message : Message)
    (user : User) : Option Buffer × Option (Buffer × MediaAttachment) :=
  match message.media with
  | none => (st, none)
  | some media =>
    match ChatSession.decryptKeyState s st user with
    | none => (none, none)
    | some key =>
      match decryptMessage message.ciphertext message.iv key,
            decryptMessage media.data message.iv key with
      | some text, some mediaData => (some key, some (text, { media with data := mediaData }))
      | _, _ => (some key, none)

theorem ChatSession.decryptKeyState_participant (s : ChatSession) (k : Buffer) (user : User)
    (hU : user.id = s.userA.id ∨ user.id = s.userB.id) :
    ChatSession.decryptKeyState s (some k) user = some k := by
  unfold ChatSession.decryptKeyState
  rcases hU with h | h <;> simp [h]

/-- C2: `encryptMedia` encrypts the media payload under its own freshly drawn
nonce `ivMedia`, which is then discarded — the returned envelope stores only
the caption's iv — and `decryptMedia` decrypts the media payload with the
envelope's iv field (the caption's iv), not a media-specific nonce. -/
theorem encryptMedia_decryptMedia_iv_usage
    (s : ChatSession) (key caption : Buffer) (media : MediaAttachment)
    (senderId msgId : String) (now : Nat) (ivText ivMedia : Buffer) (user : User)
    (hU : user.id = s.userA.id ∨ user.id = s.userB.id) :
    (ChatSession.encryptMedia s (some key) caption media senderId msgId now ivText ivMedia).2
      = some
        { id := msgId, senderId := senderId,
          receiverId := some (ChatSession.receiverFor s senderId), groupId := none,
          ciphertext := (encryptMessage caption key ivText).ciphertext,
          iv := bufferToBase64 ivText, timestamp := now, type := MessageType.media,
          media := some { media with data := (encryptMessage media.data key ivMedia).ciphertext } }
    ∧ (ChatSession.decryptMedia s (some key)
        { id := msgId, senderId := senderId,
          receiverId := some (ChatSession.receiverFor s senderId), groupId := none,
          ciphertext := (encryptMessage caption key ivText).ciphertext,
          iv := bufferToBase64 ivText, timestamp := now, type := MessageType.media,
          media := some { media with data := (encryptMessage media.data key ivMedia).ciphertext } }
        user).2
      = (match decryptMessage (encryptMessage media.data key ivMedia).ciphertext (bufferToBase64 ivText) key with
         | some md => some (caption, { media with data := md })
         | none => none) := by
  constructor
  · rfl
  · unfold ChatSession.decryptMedia
    simp only [ChatSession.decryptKeyState_participant s key user hU]
    have hcap : decryptMessage (encryptMessage caption key ivText).ciphertext (bufferToBase64 ivText) key
        = some caption := decryptMessage_encryptMessage caption key ivText
    simp only [hcap]
    cases hd : decryptMessage (encryptMessage media.data key ivMedia).ciphertext (bufferToBase64 ivText) key with
    | none => simp
    | some md => simp

/-- C5 counterexample inputs: a concrete session between alice and bob, and a
third user carol who is neither participant. -/
def cUserA : User :=
  { id := "alice", username := "alice", identityKey := [],
    publicKey := ecdhPublicKey [3], privateKey := [3] }

def cUserB : User :=
  { id := "bob", username := "bob", identityKey := [],
    publicKey := ecdhPublicKey [5], privateKey := [5] }

def cUserC : User :=
  { id := "carol", username := "carol", identityKey := [],
    publicKey := ecdhPublicKey [7], privateKey := [7] }

def cSession : ChatSession := { id := "alice-bob", userA := cUserA, userB := cUserB }

def cMessage : Message :=
  { id := "m1", senderId := "alice", receiverId := some "bob", groupId := none,
    ciphertext := [], iv := [], timestamp := 0, type := MessageType.text, media := none }

/-- C5 counterexample: the claim "every subsequent operation, for any user
argument, leaves the derived key unchanged" is false: calling `decrypt` with a
user who is neither session participant re-derives the shared secret from that
user's perspective and changes its value. -/
theorem sessionKey_changed_by_foreign_user :
    (ChatSession.decrypt cSession cSession.initSession cMessage cUserC).1
      ≠ cSession.initSession := by decide

/-- C5 (amended): once the derived key is computed, `encrypt` and
`encryptMedia` leave it unchanged for any sender, and `decrypt` /
`decryptMedia` leave it unchanged whenever the user argument is one of the
session's two participants. -/
theorem sessionKey_stable_for_participants
    (s : ChatSession) (k : Buffer) (user : User) (message : Message)
    (plaintext : Buffer) (media : MediaAttachment) (senderId msgId : String)
    (now : Nat) (ivText ivMedia : Buffer)
    (hU : user.id = s.userA.id ∨ user.id = s.userB.id) :
    (ChatSession.encrypt s (some k) plaintext senderId msgId now ivText).1 = some k
    ∧ (ChatSession.encryptMedia s (some k) plaintext media senderId msgId now ivText ivMedia).1 = some k
    ∧ (ChatSession.decrypt s (some k) message user).1 = some k
    ∧ (ChatSession.decryptMedia s (some k) message user).1 = some k := by
  refine ⟨rfl, rfl, ?_, ?_⟩
  · unfold ChatSession.decrypt
    simp only [ChatSession.decryptKeyState_participant s k user hU]
  · unfold ChatSession.decryptMedia
    cases message.media with
    | none => rfl
    | some media2 =>
      simp only [ChatSession.decryptKeyState_participant s k user hU]
      cases decryptMessage message.ciphertext message.iv k with
      | none => rfl
      | some t =>
        cases decryptMessage media2.data message.iv k with
        | none => rfl
        | some d => rfl

def cMedia : MediaAttachment :=
  { type := MediaType.image, data := [9, 8],
    metadata := { filename := "f", mimeType := "image/png", size := 2,
                  width := none, height := none, duration := none, thumbnail := none } }

/-- Witness for C2 at a concrete session, key, caption, media and nonces. -/
theorem encryptMedia_decryptMedia_iv_usage_witness :
    (cUserA.id = cSession.userA.id ∨ cUserA.id = cSession.userB.id)
    ∧ ((ChatSession.encryptMedia cSession (some [1]) [2] cMedia "alice" "m2" 7 [4] [6]).2
        = some
          { id := "m2", senderId := "alice",
            receiverId := some (ChatSession.receiverFor cSession "alice"), groupId := none,
            ciphertext := (encryptMessage [2] [1] [4]).ciphertext,
            iv := bufferToBase64 [4], timestamp := 7, type := MessageType.media,
            media := some { cMedia with data := (encryptMessage cMedia.data [1] [6]).ciphertext } }
      ∧ (ChatSession.decryptMedia cSession (some [1])
          { id := "m2", senderId := "alice",
            receiverId := some (ChatSession.receiverFor cSession "alice"), groupId := none,
            ciphertext := (encryptMessage [2] [1] [4]).ciphertext,
            iv := bufferToBase64 [4], timestamp := 7, type := MessageType.media,
            media := some { cMedia with data := (encryptMessage cMedia.data [1] [6]).ciphertext } }
          cUserA).2
        = (match decryptMessage (encryptMessage cMedia.data [1] [6]).ciphertext (bufferToBase64 [4]) [1] with
           | some md => some ([2], { cMedia with data := md })
           | none => none)) :=
  ⟨Or.inl rfl,
    encryptMedia_decryptMedia_iv_usage cSession [1] [2] cMedia "alice" "m2" 7 [4] [6] cUserA (Or.inl rfl)⟩

/-- ChatSDK.startSession (index.ts): the pairwise session id is the two user
ids sorted (JS default lexicographic sort) and joined with a dash. -/
def startSessionId (userA userB : User) : String :=
  if userA.id ≤ userB.id then userA.id ++ "-" ++ userB.id else userB.id ++ "-" ++ userA.id

/-- C6: the pairwise session id computed by `startSession` is independent of
the argument order. -/
theorem startSessionId_comm (A B : User) : startSessionId A B = startSessionId B A := by
  unfold startSessionId
  by_cases h : A.id ≤ B.id
  · by_cases h2 : B.id ≤ A.id
    · have heq : A.id = B.id := le_antisymm h h2
      simp [h, h2, heq]
    · simp [h, h2]
  · have h2 : B.id ≤ A.id := le_of_not_le h
    simp [h, h2]

/-- constants.ts: MAX_QUEUE_SIZE = 1000. -/
def MAX_QUEUE_SIZE : Nat := 1000

/-- constants.ts: MESSAGE_RETRY_ATTEMPTS = 3 (default `maxRetries`). -/
def MESSAGE_RETRY_ATTEMPTS : Nat := 3

/-- constants.ts: MESSAGE_RETRY_DELAY = 2000. -/
def MESSAGE_RETRY_DELAY : Nat := 2000

/-- constants.ts `MessageStatus`. -/
inductive MessageStatus
  | pending
  | sent
  | delivered
  | failed
deriving DecidableEq, Repr

/-- utils/messageQueue.ts `QueuedMessage`. -/
structure QueuedMessage where
  message : Message
  status : MessageStatus
  attempts : Nat
  lastAttempt : Option Nat
  error : Option String
deriving DecidableEq, Repr

/-- JS `Map.set` on an insertion-ordered map (association list): updating an
existing key keeps its insertion position, a new key is appended at the end. -/
def mapSet : List (String × QueuedMessage) → String → QueuedMessage → List (String × QueuedMessage)
  | [], k, v => [(k, v)]
  | p :: rest, k, v => if p.1 = k then (k, v) :: rest else p :: mapSet rest k v

/-- JS `Map.get`. -/
def mapGet (q : List (String × QueuedMessage)) (k : String) : Option QueuedMessage :=
  (q.find? (fun p => p.1 == k)).map Prod.snd

/-- JS `Map.delete`. -/
def mapDelete (q : List (String × QueuedMessage)) (k : String) : List (String × QueuedMessage) :=
  q.filter (fun p => !(p.1 == k))

/-- utils/messageQueue.ts `MessageQueue` (queue map plus configuration). -/
structure MessageQueue where
  queue : List (String × QueuedMessage)
  maxSize : Nat
  maxRetries : Nat
  retryDelay : Nat
deriving DecidableEq, Repr

/-- The entry `enqueue` stores: status pending, attempts 0, no bookkeeping. -/
def freshQueued (message : Message) : QueuedMessage :=
  { message := message, status := MessageStatus.pending, attempts := 0,
    lastAttempt := none, error := none }

/-- `MessageQueue.enqueue(message)`: if `size >= maxSize`, look up the first
key in insertion order and delete it — but only if that key is truthy (the
source guards with `if (firstKey)`, so an empty-string id is never evicted);
then `set` the message id to a fresh pending entry. -/
def MessageQueue.enqueue (mq : MessageQueue) (message : Message) : MessageQueue :=
  let q1 :=
    if mq.maxSize ≤ mq.queue.length then
      match mq.queue with
      | [] => mq.queue
      | (firstKey, _) :: _ => if firstKey = "" then mq.queue else mapDelete mq.queue firstKey
    else mq.queue
  { mq with queue := mapSet q1 message.id (freshQueued message) }

/-- `MessageQueue.markFailed(messageId, error)`: if present, set status failed,
record the error, increment attempts, record `lastAttempt = Date.now()`
(externalized as `now`), and delete the entry once attempts reach maxRetries. -/
def MessageQueue.markFailed (mq : MessageQueue) (messageId err : String) (now : Nat) : MessageQueue :=
  match mapGet mq.queue messageId with
  | none => mq
  | some queued =>
    let updated : QueuedMessage :=
      { queued with
          status := MessageStatus.failed, error := some err,
          attempts := queued.attempts + 1, lastAttempt := some now }
    let q1 := mapSet mq.queue messageId updated
    if mq.maxRetries ≤ updated.attempts then { mq with queue := mapDelete q1 messageId }
    else { mq with queue := q1 }

theorem mapGet_mapSet_self : ∀ (q : List (String × QueuedMessage)) (k : String) (v : QueuedMessage),
    mapGet (mapSet q k v) k = some v := by
  intro q k v
  induction q with
  | nil => simp [mapSet, mapGet, List.find?]
  | cons p rest ih =>
    by_cases hp : p.1 = k
    · simp [mapSet, mapGet, hp, List.find?]
    · simp only [mapSet, if_neg hp]
      simpa [mapGet, List.find?_cons, hp] using ih

theorem mapGet_mapDelete_self : ∀ (q : List (String × QueuedMessage)) (k : String),
    mapGet (mapDelete q k) k = none := by
  intro q k
  induction q with
  | nil => simp [mapDelete, mapGet]
  | cons p rest ih =>
    by_cases hp : p.1 = k
    · simpa [mapDelete, List.filter_cons, hp] using ih
    · simpa [mapDelete, mapGet, List.filter_cons, hp, List.find?_cons] using ih

theorem mapDelete_eq_self : ∀ (q : List (String × QueuedMessage)) (k : String),
    (∀ p ∈ q, p.1 ≠ k) → mapDelete q k = q := by
  intro q k h
  induction q with
  | nil => rfl
  | cons p rest ih =>
    have hp : p.1 ≠ k := h p (List.mem_cons_self p rest)
    have hrest : ∀ p2 ∈ rest, p2.1 ≠ k := fun p2 hm => h p2 (List.mem_cons_of_mem p hm)
    simp only [mapDelete, List.filter_cons] at ih ⊢
    simp [hp, ih hrest]

theorem mapDelete_cons_self (k0 : String) (v0 : QueuedMessage)
    (rest : List (String × QueuedMessage)) (h : ∀ p ∈ rest, p.1 ≠ k0) :
    mapDelete ((k0, v0) :: rest) k0 = rest := by
  simp only [mapDelete, List.filter_cons]
  simp only [beq_self_eq_true, Bool.not_true, Bool.false_eq_true, if_false]
  exact mapDelete_eq_self rest k0 h

/-- C7 (amended): when the queue has reached `maxSize`, `enqueue` of a new
envelope evicts exactly the oldest entry (insertion order) and then inserts
the fresh entry — provided the oldest entry's id is not the empty string
(the source's truthiness guard skips eviction for a falsy first key) — and
below capacity `enqueue` evicts nothing. -/
theorem enqueue_fifo_eviction (mq : MessageQueue) (m : Message) :
    (∀ (k0 : String) (v0 : QueuedMessage) (rest : List (String × QueuedMessage)),
      mq.queue = (k0, v0) :: rest → k0 ≠ "" → (mq.queue.map Prod.fst).Nodup →
      mq.maxSize ≤ mq.queue.length →
      (MessageQueue.enqueue mq m).queue = mapSet rest m.id (freshQueued m))
    ∧ (mq.queue.length < mq.maxSize →
      (MessageQueue.enqueue mq m).queue = mapSet mq.queue m.id (freshQueued m)) := by
  constructor
  · intro k0 v0 rest hq hk hnodup hfull
    have hnotmem : ∀ p ∈ rest, p.1 ≠ k0 := by
      rw [hq] at hnodup
      simp only [List.map_cons, List.nodup_cons] at hnodup
      intro p hm he
      exact hnodup.1 (he ▸ List.mem_map_of_mem Prod.fst hm)
    unfold MessageQueue.enqueue
    rw [hq, if_pos (hq ▸ hfull)]
    simp only [if_neg hk]
    rw [mapDelete_cons_self k0 v0 rest hnotmem]
  · intro hlt
    unfold MessageQueue.enqueue
    rw [if_neg (by omega)]

def cqdE : QueuedMessage := freshQueued { cMessage with id := "" }

def cmqE : MessageQueue :=
  { queue := [("", cqdE)], maxSize := 1, maxRetries := 3, retryDelay := 2000 }

def cmE : Message := { cMessage with id := "x" }

/-- C7 counterexample: a queue at capacity whose oldest entry has the empty
string as id: enqueueing a new envelope evicts nothing (the oldest entry
survives and the queue grows past maxSize), because the source's
`if (firstKey)` guard treats the empty-string key as falsy. -/
theorem enqueue_skips_eviction_for_empty_id :
    cmqE.maxSize ≤ cmqE.queue.length ∧ cmE.id ≠ "" ∧
    mapGet (MessageQueue.enqueue cmqE cmE).queue "" = some cqdE ∧
    (MessageQueue.enqueue cmqE cmE).queue.length = 2 := by decide

def cqd7a : QueuedMessage := freshQueued cMessage

def cmsg7b : Message := { cMessage with id := "n2" }

def cqd7b : QueuedMessage := freshQueued cmsg7b

def cmq7 : MessageQueue :=
  { queue := [("m1", cqd7a), ("n2", cqd7b)], maxSize := 2, maxRetries := 3, retryDelay := 2000 }

def cm7 : Message := { cMessage with id := "p3" }

def cmq7s : MessageQueue :=
  { queue := [("m1", cqd7a)], maxSize := 2, maxRetries := 3, retryDelay := 2000 }

/-- Witness for C7 (amended) on a concrete full queue and a concrete
below-capacity queue. -/
theorem enqueue_fifo_eviction_witness :
    cmq7.maxSize ≤ cmq7.queue.length ∧
    (MessageQueue.enqueue cmq7 cm7).queue = mapSet [("n2", cqd7b)] "p3" (freshQueued cm7) ∧
    cmq7s.queue.length < cmq7s.maxSize ∧
    (MessageQueue.enqueue cmq7s cm7).queue = mapSet cmq7s.queue "p3" (freshQueued cm7) :=
  ⟨by decide,
   (enqueue_fifo_eviction cmq7 cm7).1 "m1" cqd7a [("n2", cqd7b)] rfl (by decide) (by decide) (by decide),
   by decide,
   (enqueue_fifo_eviction cmq7s cm7).2 (by decide)⟩

theorem markFailed_absent (mq : MessageQueue) (messageId err : String) (now : Nat)
    (h : mapGet mq.queue messageId = none) :
    MessageQueue.markFailed mq messageId err now = mq := by
  unfold MessageQueue.markFailed
  rw [h]

theorem markFailed_maxRetries_eq (mq : MessageQueue) (messageId err : String) (now : Nat) :
    (MessageQueue.markFailed mq messageId err now).maxRetries = mq.maxRetries := by
  unfold MessageQueue.markFailed
  cases mapGet mq.queue messageId with
  | none => rfl
  | some queued =>
    by_cases h : mq.maxRetries ≤ queued.attempts + 1
    · simp [h]
    · simp [h]

theorem markFailed_step_below (mq : MessageQueue) (messageId err : String) (now : Nat)
    (qd : QueuedMessage) (h : mapGet mq.queue messageId = some qd)
    (hlt : qd.attempts + 1 < mq.maxRetries) :
    (MessageQueue.markFailed mq messageId err now).queue
      = mapSet mq.queue messageId
          { qd with
              status := MessageStatus.failed, error := some err,
              attempts := qd.attempts + 1, lastAttempt := some now } := by
  simp only [MessageQueue.markFailed, h]
  rw [if_neg (Nat.not_le.mpr hlt)]

theorem markFailed_step_last (mq : MessageQueue) (messageId err : String) (now : Nat)
    (qd : QueuedMessage) (h : mapGet mq.queue messageId = some qd)
    (hge : mq.maxRetries ≤ qd.attempts + 1) :
    (MessageQueue.markFailed mq messageId err now).queue
      = mapDelete (mapSet mq.queue messageId
          { qd with
              status := MessageStatus.failed, error := some err,
              attempts := qd.attempts + 1, lastAttempt := some now }) messageId := by
  simp only [MessageQueue.markFailed, h]
  rw [if_pos hge]

theorem markFailed_iter_absent (messageId err : String) (now : Nat) :
    ∀ (n : Nat) (mq : MessageQueue), mapGet mq.queue messageId = none →
      mapGet (((fun q => MessageQueue.markFailed q messageId err now)^[n]) mq).queue messageId = none := by
  intro n
  induction n with
  | zero => intro mq h; simpa using h
  | succ k ih =>
    intro mq h
    rw [Function.iterate_succ_apply]
    rw [markFailed_absent mq messageId err now h]
    exact ih mq h

theorem markFailed_iter_removes (messageId err : String) (now : Nat) :
    ∀ (n : Nat) (mq : MessageQueue) (qd : QueuedMessage), 1 ≤ n →
      mapGet mq.queue messageId = some qd → mq.maxRetries ≤ qd.attempts + n →
      mapGet (((fun q => MessageQueue.markFailed q messageId err now)^[n]) mq).queue messageId = none := by
  intro n
  induction n with
  | zero => intro mq qd h1; omega
  | succ k ih =>
    intro mq qd h1 hget hbound
    rw [Function.iterate_succ_apply]
    by_cases hge : mq.maxRetries ≤ qd.attempts + 1
    · have hnone : mapGet (MessageQueue.markFailed mq messageId err now).queue messageId = none := by
        rw [markFailed_step_last mq messageId err now qd hget hge]
        exact mapGet_mapDelete_self _ _
      exact markFailed_iter_absent messageId err now k _ hnone
    · have hlt : qd.attempts + 1 < mq.maxRetries := by omega
      have hk : 1 ≤ k := by omega
      have hget2 : mapGet (MessageQueue.markFailed mq messageId err now).queue messageId
          = some { qd with
                     status := MessageStatus.failed, error := some err,
                     attempts := qd.attempts + 1, lastAttempt := some now } := by
        rw [markFailed_step_below mq messageId err now qd hget hlt]
        exact mapGet_mapSet_self _ _ _
      apply ih (MessageQueue.markFailed mq messageId err now) _ hk hget2
      rw [markFailed_maxRetries_eq]
      simp only []
      omega

/-- C8: `markFailed` on a queued entry increments its attempts counter and
records the error and last-attempt time; when the incremented counter reaches
`maxRetries` the entry is removed; consequently `markFailed` applied
`maxRetries` times to an entry with zero attempts removes it permanently. -/
theorem markFailed_retry_bookkeeping (mq : MessageQueue) (messageId err : String)
    (now : Nat) (qd : QueuedMessage) (h : mapGet mq.queue messageId = some qd) :
    (qd.attempts + 1 < mq.maxRetries →
      mapGet (MessageQueue.markFailed mq messageId err now).queue messageId
        = some { qd with
                   status := MessageStatus.failed, error := some err,
                   attempts := qd.attempts + 1, lastAttempt := some now })
    ∧ (mq.maxRetries ≤ qd.attempts + 1 →
      mapGet (MessageQueue.markFailed mq messageId err now).queue messageId = none)
    ∧ (qd.attempts = 0 → 1 ≤ mq.maxRetries →
      mapGet (((fun q => MessageQueue.markFailed q messageId err now)^[mq.maxRetries]) mq).queue
        messageId = none) := by
  refine ⟨fun hlt => ?_, fun hge => ?_, fun h0 hR => ?_⟩
  · rw [markFailed_step_below mq messageId err now qd h hlt]
    exact mapGet_mapSet_self _ _ _
  · rw [markFailed_step_last mq messageId err now qd h hge]
    exact mapGet_mapDelete_self _ _
  · exact markFailed_iter_removes messageId err now mq.maxRetries mq qd hR h (by omega)

def cqd8 : QueuedMessage := freshQueued cMessage

def cmq8 : MessageQueue :=
  { queue := [("m1", cqd8)], maxSize := 1000, maxRetries := 3, retryDelay := 2000 }

/-- Witness for C8 on a concrete queue holding one never-attempted entry,
with the default maxRetries of 3. -/
theorem markFailed_retry_bookkeeping_witness :
    mapGet cmq8.queue "m1" = some cqd8
    ∧ ((cqd8.attempts + 1 < cmq8.maxRetries →
        mapGet (MessageQueue.markFailed cmq8 "m1" "boom" 5).queue "m1"
          = some { cqd8 with
                     status := MessageStatus.failed, error := some "boom",
                     attempts := cqd8.attempts + 1, lastAttempt := some 5 })
      ∧ (cmq8.maxRetries ≤ cqd8.attempts + 1 →
        mapGet (MessageQueue.markFailed cmq8 "m1" "boom" 5).queue "m1" = none)
      ∧ (cqd8.attempts = 0 → 1 ≤ cmq8.maxRetries →
        mapGet (((fun q => MessageQueue.markFailed q "m1" "boom" 5)^[cmq8.maxRetries]) cmq8).queue
          "m1" = none)) :=
  ⟨by decide, markFailed_retry_bookkeeping cmq8 "m1" "boom" 5 cqd8 (by decide)⟩

/-- C10: enqueueing a message whose id is already present replaces the
existing entry with a fresh one (status pending, attempts 0, no lastAttempt,
no error), silently discarding the previous retry bookkeeping. -/
theorem enqueue_resets_existing_entry (mq : MessageQueue) (m : Message)
    (old : QueuedMessage) (h : mapGet mq.queue m.id = some old) :
    mapGet (MessageQueue.enqueue mq m).queue m.id = some (freshQueued m) := by
  unfold MessageQueue.enqueue
  exact mapGet_mapSet_self _ _ _

def cqd10 : QueuedMessage :=
  { message := cMessage, status := MessageStatus.failed, attempts := 2,
    lastAttempt := some 9, error := some "send failed" }

def cmq10 : MessageQueue :=
  { queue := [("m1", cqd10)], maxSize := 1000, maxRetries := 3, retryDelay := 2000 }

/-- Witness for C10 on a concrete queue holding a failed entry with two
recorded attempts for the same message id. -/
theorem enqueue_resets_existing_entry_witness :
    mapGet cmq10.queue cMessage.id = some cqd10
    ∧ mapGet (MessageQueue.enqueue cmq10 cMessage).queue cMessage.id = some (freshQueued cMessage) :=
  ⟨by decide, enqueue_resets_existing_entry cmq10 cMessage cqd10 (by decide)⟩

/-- constants.ts: RECONNECT_MAX_ATTEMPTS = 5. -/
def RECONNECT_MAX_ATTEMPTS : Nat := 5

/-- constants.ts `ConnectionState`. -/
inductive ConnectionState
  | disconnected
  | connecting
  | connected
  | reconnecting
  | failed
deriving DecidableEq, Repr

/-- The mutable state of transport/websocketClient.ts `WebSocketClient` that
the reconnect logic reads and writes: connection state, the consecutive
reconnect-attempt counter, the `shouldReconnect` flag and whether a reconnect
timer is pending. -/
structure WSState where
  connectionState : ConnectionState
  reconnectAttempts : Nat
  shouldReconnect : Bool
  timerActive : Bool
deriving DecidableEq, Repr

/-- `WebSocketClient.scheduleReconnect()`: clear any pending timer, increment
the attempt counter, move to RECONNECTING and arm the backoff timer.  (The
backoff delay and jitter affect only timing, not the state machine.) -/
def WebSocketClient.scheduleReconnect (s : WSState) : WSState :=
  { s with timerActive := true, reconnectAttempts := s.reconnectAttempts + 1,
           connectionState := ConnectionState.reconnecting }

/-- The `onclose` handler in `WebSocketClient.doConnect`: if not already
DISCONNECTED, move to DISCONNECTED, then schedule a reconnect when
`shouldReconnect` holds and the attempt counter is below
RECONNECT_MAX_ATTEMPTS; otherwise, if the counter has reached the cap, move to
FAILED and emit the terminal error.  The boolean reports whether
`scheduleReconnect` was invoked. -/
def WebSocketClient.handleClose (s : WSState) : WSState × Bool :=
  if s.connectionState ≠ ConnectionState.disconnected then
    if s.shouldReconnect = true ∧ s.reconnectAttempts < RECONNECT_MAX_ATTEMPTS then
      (WebSocketClient.scheduleReconnect { s with connectionState := ConnectionState.disconnected }, true)
    else if RECONNECT_MAX_ATTEMPTS ≤ s.reconnectAttempts then
      ({ s with connectionState := ConnectionState.failed }, false)
    else
      ({ s with connectionState := ConnectionState.disconnected }, false)
  else (s, false)

/-- The reconnect timer firing: the timer is consumed and `doConnect` runs,
which moves to CONNECTING unless already connecting (duplicate-connect
guard). -/
def WebSocketClient.timerFire (s : WSState) : WSState :=
  if s.timerActive = true then
    if s.connectionState = ConnectionState.connecting then s
    else { s with connectionState := ConnectionState.connecting, timerActive := false }
  else s

/-- Automatic events of the reconnect loop (runs with no successful open and
no manual `disconnect()`/`reconnect()` call, which are the only ways the
counter is reset). -/
inductive WSEvent
  | closeEvt
  | timerEvt
deriving DecidableEq, Repr

/-- One automatic step; the boolean reports whether a reconnect was
scheduled during the step. -/
def wsStep (s : WSState) : WSEvent → WSState × Bool
  | WSEvent.closeEvt => WebSocketClient.handleClose s
  | WSEvent.timerEvt => (WebSocketClient.timerFire s, false)

/-- Run a sequence of automatic events; the boolean reports whether any step
scheduled a reconnect. -/
def wsRun : WSState → List WSEvent → WSState × Bool
  | s, [] => (s, false)
  | s, e :: es => ((wsRun (wsStep s e).1 es).1, ((wsStep s e).2 || (wsRun (wsStep s e).1 es).2))

theorem wsStep_schedule_lt (s2 : WSState) (e : WSEvent) (hs : (wsStep s2 e).2 = true) :
    s2.reconnectAttempts < RECONNECT_MAX_ATTEMPTS := by
  cases e with
  | timerEvt => simp [wsStep] at hs
  | closeEvt =>
    simp only [wsStep, WebSocketClient.handleClose] at hs
    by_cases h1 : s2.connectionState ≠ ConnectionState.disconnected
    · rw [if_pos h1] at hs
      by_cases h2 : s2.shouldReconnect = true ∧ s2.reconnectAttempts < RECONNECT_MAX_ATTEMPTS
      · exact h2.2
      · rw [if_neg h2] at hs
        by_cases h3 : RECONNECT_MAX_ATTEMPTS ≤ s2.reconnectAttempts
        · rw [if_pos h3] at hs
          exact absurd hs (by simp)
        · rw [if_neg h3] at hs
          exact absurd hs (by simp)
    · rw [if_neg h1] at hs
      exact absurd hs (by simp)

theorem wsStep_attempts_mono (s2 : WSState) (e : WSEvent) :
    s2.reconnectAttempts ≤ (wsStep s2 e).1.reconnectAttempts := by
  cases e with
  | timerEvt =>
    simp only [wsStep, WebSocketClient.timerFire]
    by_cases h1 : s2.timerActive = true
    · rw [if_pos h1]
      by_cases h2 : s2.connectionState = ConnectionState.connecting
      · rw [if_pos h2]
      · rw [if_neg h2]
    · rw [if_neg h1]
  | closeEvt =>
    simp only [wsStep, WebSocketClient.handleClose]
    by_cases h1 : s2.connectionState ≠ ConnectionState.disconnected
    · rw [if_pos h1]
      by_cases h2 : s2.shouldReconnect = true ∧ s2.reconnectAttempts < RECONNECT_MAX_ATTEMPTS
      · rw [if_pos h2]
        simp [WebSocketClient.scheduleReconnect]
      · rw [if_neg h2]
        by_cases h3 : RECONNECT_MAX_ATTEMPTS ≤ s2.reconnectAttempts
        · rw [if_pos h3]
        · rw [if_neg h3]
    · rw [if_neg h1]

theorem wsRun_no_schedule (evts : List WSEvent) :
    ∀ s : WSState, RECONNECT_MAX_ATTEMPTS ≤ s.reconnectAttempts → (wsRun s evts).2 = false := by
  induction evts with
  | nil => intro s h; rfl
  | cons e es ih =>
    intro s h
    simp only [wsRun]
    have h1 : (wsStep s e).2 = false := by
      cases hb : (wsStep s e).2
      · rfl
      · exact absurd (wsStep_schedule_lt s e hb) (by omega)
    have h2 : (wsRun (wsStep s e).1 es).2 = false :=
      ih _ (le_trans h (wsStep_attempts_mono s e))
    rw [h1, h2]
    rfl

/-- C9: once the consecutive reconnect counter has reached
RECONNECT_MAX_ATTEMPTS (5), the next socket close moves the connection state
to `failed` without scheduling a reconnect, no sequence of further automatic
events ever schedules one, and in general `scheduleReconnect` is reached only
while the counter is below 5. -/
theorem reconnect_terminal_failure (s : WSState)
    (h : RECONNECT_MAX_ATTEMPTS ≤ s.reconnectAttempts) :
    (s.connectionState ≠ ConnectionState.disconnected →
      (WebSocketClient.handleClose s).1.connectionState = ConnectionState.failed
      ∧ (WebSocketClient.handleClose s).2 = false)
    ∧ (∀ evts : List WSEvent, (wsRun s evts).2 = false)
    ∧ (∀ (s2 : WSState) (e : WSEvent), (wsStep s2 e).2 = true →
        s2.reconnectAttempts < RECONNECT_MAX_ATTEMPTS) := by
  refine ⟨fun hne => ?_, fun evts => wsRun_no_schedule evts s h, wsStep_schedule_lt⟩
  unfold WebSocketClient.handleClose
  rw [if_pos hne, if_neg (by rintro ⟨-, hlt⟩; omega), if_pos h]
  exact ⟨rfl, rfl⟩

def cWS9 : WSState :=
  { connectionState := ConnectionState.connected, reconnectAttempts := 5,
    shouldReconnect := true, timerActive := false }

/-- Witness for C9 at a concrete exhausted state (5 failed attempts). -/
theorem reconnect_terminal_failure_witness :
    RECONNECT_MAX_ATTEMPTS ≤ cWS9.reconnectAttempts
    ∧ ((cWS9.connectionState ≠ ConnectionState.disconnected →
        (WebSocketClient.handleClose cWS9).1.connectionState = ConnectionState.failed
        ∧ (WebSocketClient.handleClose cWS9).2 = false)
      ∧ (∀ evts : List WSEvent, (wsRun cWS9 evts).2 = false)
      ∧ (∀ (s2 : WSState) (e : WSEvent), (wsStep s2 e).2 = true →
          s2.reconnectAttempts < RECONNECT_MAX_ATTEMPTS)) :=
  ⟨by decide, reconnect_terminal_failure cWS9 (by decide)⟩

/-- Witness for the amended C5 at a concrete session, key and participant. -/
theorem sessionKey_stable_for_participants_witness :
    (cUserA.id = cSession.userA.id ∨ cUserA.id = cSession.userB.id)
    ∧ ((ChatSession.encrypt cSession (some [1]) [2] "alice" "m3" 1 [4]).1 = some [1]
      ∧ (ChatSession.encryptMedia cSession (some [1]) [2] cMedia "alice" "m3" 1 [4] [6]).1 = some [1]
      ∧ (ChatSession.decrypt cSession (some [1]) cMessage cUserA).1 = some [1]
      ∧ (ChatSession.decryptMedia cSession (some [1]) cMessage cUserA).1 = some [1]) :=
  ⟨Or.inl rfl,
    sessionKey_stable_for_participants cSession [1] cUserA cMessage [2] cMedia "alice" "m3" 1 [4] [6]
      (Or.inl rfl)⟩
